import Mathlib

/-!
Shallow embedding of the rendering and interaction core of the KLineChart
repository, together with theorems settling the frozen claims about it.

Embedded sources:
* `src/data/base/mark/GraphicMark.js` — the graphic-mark state machine
  (placement, hover hit-testing, dragging, drawing dispatch);
* `src/widget/DrawWidget.ts` — the double-canvas widget with coalesced
  animation-frame redraw scheduling;
* `CandleAreaView` (an unnamed source file of the repository) — the area
  view whose gradient construction is guarded by a try/catch.

External collaborators (axes, data store, canvas contexts, style objects)
are modelled as explicit function parameters or event traces, following the
spec's interface descriptions.  Machine numbers that the JavaScript code
manipulates are modelled as exact rationals and integers; pixel values are
rationals, data indices and timestamps are integers.
-/

namespace KLC

/-- A point in pixel space, as produced by the axis conversions. -/
structure XYPoint where
  x : ℚ
  y : ℚ
deriving DecidableEq, Repr

/-- A time-price point of a graphic mark (`tpPoint` in the source).
`timestamp` is `Option` because the data store's
`dataIndexToTimestamp` may return null; a `some 0` is a genuine numeric
zero, which JavaScript truthiness treats like an absent value. -/
structure TPPoint where
  timestamp : Option ℤ
  dataIndex : ℤ
  price : ℚ
deriving DecidableEq, Repr

/-- `HoverType` from GraphicMark.js. -/
inductive HoverType where
  | OTHER
  | POINT
  | NONE
deriving DecidableEq, Repr

/-- `GraphicMarkDrawType` from GraphicMark.js. -/
inductive GraphicMarkDrawType where
  | LINE
  | TEXT
deriving DecidableEq, Repr

/-- A text item of a TEXT data source group. -/
structure XYText where
  x : ℚ
  y : ℚ
  text : String
deriving DecidableEq, Repr

/-- One element of a graphic option's `dataSource`: either a list of points
(consumed by the line renderer) or a text record (consumed by the text
renderer). -/
inductive GMDataSeg where
  | seg (points : List XYPoint)
  | txt (t : XYText)
deriving DecidableEq, Repr

/-- One drawable group returned by the `createGraphicOptions` extension
hook: `(type, isDraw?, isCheck?, dataSource)`.  `isDraw` is optional in the
source; `isCheck` is read with JavaScript truthiness (absent counts as
false), so it is modelled as a plain `Bool`. -/
structure GraphicOption where
  type : GraphicMarkDrawType
  isDraw : Option Bool
  isCheck : Bool
  dataSource : List GMDataSeg
deriving DecidableEq, Repr

/-- `GRAPHIC_MARK_DRAW_STEP_START` from GraphicMark.js. -/
def GRAPHIC_MARK_DRAW_STEP_START : ℤ := 1

/-- `GRAPHIC_MARK_DRAW_STEP_FINISHED` from GraphicMark.js. -/
def GRAPHIC_MARK_DRAW_STEP_FINISHED : ℤ := -1

/-- The collaborators a GraphicMark consults: the two axes and the chart
data store (spec section 6).  All are pure conversion functions. -/
structure Env where
  convertToPixelX : ℤ → ℚ
  convertFromPixelX : ℚ → ℤ
  convertToPixelY : ℚ → ℚ
  convertFromPixelY : ℚ → ℚ
  timestampToDataIndex : ℤ → ℤ
  dataIndexToTimestamp : ℤ → Option ℤ

/-- JavaScript truthiness of an optional number: null/undefined and 0 are
falsy, every other number is truthy. -/
def jsTruthyInt : Option ℤ → Bool
  | none => false
  | some v => v != 0

/-- JavaScript truthiness of an optional boolean (an implicitly returned
`undefined` is falsy). -/
def jsTruthy : Option Bool → Bool
  | none => false
  | some b => b

/-- `isValid` from utils/typeChecks: the value is neither null nor
undefined. -/
def isValid (o : Option Bool) : Bool :=
  o.isSome

/-- Modelled from the spec: the hit test for a placed point's hit-circle
(the repository's `checkPointOnCircle` helper in
extension/mark/graphicHelper is not under src/).  Per the spec, a query
point hits when it lies within the circle of the configured radius around
the placed point's pixel position. -/
def checkPointOnCircle (c : XYPoint) (radius : ℚ) (p : XYPoint) : Bool :=
  (p.x - c.x) * (p.x - c.x) + (p.y - c.y) * (p.y - c.y) ≤ radius * radius

/-- The mutable state of a `GraphicMark` instance (constructor fields of
GraphicMark.js). -/
structure MarkState where
  id : String
  name : String
  totalStep : ℤ
  drawStep : ℤ
  tpPoints : List TPPoint
  hoverType : HoverType
  hoverIndex : ℤ
deriving DecidableEq, Repr

/-- The GraphicMark constructor: initial placement state. -/
def initMark (id name : String) (totalStep : ℤ) : MarkState :=
  { id := id
    name := name
    totalStep := totalStep
    drawStep := GRAPHIC_MARK_DRAW_STEP_START
    tpPoints := []
    hoverType := HoverType.NONE
    hoverIndex := -1 }

/-- `_timestampOrDataIndexToPointX` of GraphicMark.js: a truthy timestamp
is converted through the data store, otherwise the `dataIndex` path is
used. -/
def timestampOrDataIndexToPointX (env : Env) (timestamp : Option ℤ) (dataIndex : ℤ) : ℚ :=
  if jsTruthyInt timestamp then
    env.convertToPixelX (env.timestampToDataIndex (timestamp.getD 0))
  else
    env.convertToPixelX dataIndex

/-- The pixel position of a time-price point, as computed identically in
`draw` and `checkMousePointOnGraphic`. -/
def toXY (env : Env) (tp : TPPoint) : XYPoint :=
  { x := timestampOrDataIndexToPointX env tp.timestamp tp.dataIndex
    y := env.convertToPixelY tp.price }

/-- JavaScript indexed assignment `l[i] = v` on a dense array, for the
index regimes the state machine exercises: in-range overwrites, the index
equal to the length appends.  A negative index is a plain property write
that leaves the array contents unchanged; an index beyond the length would
create a sparse hole, which the placement protocol never produces and
which is modelled as leaving the dense contents unchanged. -/
def jsArraySet {α : Type} (l : List α) (i : ℤ) (v : α) : List α :=
  if 0 ≤ i then
    if i.toNat < l.length then l.set i.toNat v
    else if i.toNat = l.length then l ++ [v]
    else l
  else l

/-- `mouseMoveForDrawing` of GraphicMark.js: converts the pixel to
`(dataIndex, timestamp, price)` and writes `tpPoints[drawStep - 1]`.  The
`performMouseMoveForDrawing` extension hook has an empty base body. -/
def mouseMoveForDrawing (env : Env) (s : MarkState) (p : XYPoint) : MarkState :=
  let dataIndex := env.convertFromPixelX p.x
  let timestamp := env.dataIndexToTimestamp dataIndex
  let price := env.convertFromPixelY p.y
  let tp : TPPoint := { timestamp := timestamp, dataIndex := dataIndex, price := price }
  { s with tpPoints := jsArraySet s.tpPoints (s.drawStep - 1) tp }

/-- `mouseLeftButtonDownForDrawing` of GraphicMark.js. -/
def mouseLeftButtonDownForDrawing (s : MarkState) : MarkState :=
  if s.drawStep = s.totalStep - 1 then
    { s with drawStep := GRAPHIC_MARK_DRAW_STEP_FINISHED }
  else
    { s with drawStep := s.drawStep + 1 }

/-- `mousePressedMove` of GraphicMark.js: guarded on
`hoverType === POINT && hoverIndex !== -1`; overwrites timestamp,
dataIndex and price of `tpPoints[hoverIndex]` (all three fields, i.e. the
whole record).  An out-of-range element access would raise a TypeError in
the source; it is modelled as leaving the list unchanged — the claims only
concern valid indices.  The `performMousePressedMove` hook has an empty
base body. -/
def mousePressedMove (env : Env) (s : MarkState) (p : XYPoint) : MarkState :=
  if s.hoverType = HoverType.POINT ∧ s.hoverIndex ≠ -1 then
    let dataIndex := env.convertFromPixelX p.x
    let timestamp := env.dataIndexToTimestamp dataIndex
    let price := env.convertFromPixelY p.y
    let tp : TPPoint := { timestamp := timestamp, dataIndex := dataIndex, price := price }
    { s with tpPoints :=
        if 0 ≤ s.hoverIndex then s.tpPoints.set s.hoverIndex.toNat tp else s.tpPoints }
  else s

/-- `resetHoverParams` of GraphicMark.js. -/
def resetHoverParams (s : MarkState) : MarkState :=
  { s with hoverType := HoverType.NONE, hoverIndex := -1 }

/-- Index of the first element of a list satisfying a predicate — the
early-return loops of `checkMousePointOnGraphic` expressed as recursion. -/
def firstHitIdx {α : Type} (p : α → Bool) : List α → Option ℕ
  | [] => none
  | a :: rest => if p a then some 0 else (firstHitIdx p rest).map (· + 1)

/-- The second loop of `checkMousePointOnGraphic`: over each graphic
option with a truthy `isCheck`, test the query point against each
`dataSource` element via the `checkMousePointOn` extension hook; the first
match yields its index inside that group's `dataSource`. -/
def checkGroupsLoop (checkOn : GMDataSeg → XYPoint → Bool) (point : XYPoint) :
    List GraphicOption → Option ℕ
  | [] => none
  | g :: rest =>
    if g.isCheck then
      match firstHitIdx (fun dsItem => checkOn dsItem point) g.dataSource with
      | some i => some i
      | none => checkGroupsLoop checkOn point rest
    else checkGroupsLoop checkOn point rest

/-- `checkMousePointOnGraphic` of GraphicMark.js.  `createOpts` is the
`createGraphicOptions` extension hook (the base body returns undefined,
hence the `Option` and the `|| []` default); `checkOn` is the
`checkMousePointOn` extension hook.  The result pairs the new state with
the returned value: the two match paths return `some true`, the no-match
path resets the hover parameters and returns no value (`none`, the
implicit undefined). -/
def checkMousePointOnGraphic (env : Env) (radius : ℚ)
    (createOpts : List TPPoint → List XYPoint → Option (List GraphicOption))
    (checkOn : GMDataSeg → XYPoint → Bool)
    (s : MarkState) (point : XYPoint) : MarkState × Option Bool :=
  let xyPoints := s.tpPoints.map (toXY env)
  match firstHitIdx (fun xy => checkPointOnCircle xy radius point) xyPoints with
  | some i => ({ s with hoverType := HoverType.POINT, hoverIndex := (i : ℤ) }, some true)
  | none =>
    let graphicOptions := (createOpts s.tpPoints xyPoints).getD []
    match checkGroupsLoop checkOn point graphicOptions with
    | some i => ({ s with hoverType := HoverType.OTHER, hoverIndex := (i : ℤ) }, some true)
    | none => (resetHoverParams s, none)

/-- Observable rendering events emitted by `GraphicMark.draw`. -/
inductive MarkDrawEvent where
  | callDrawLines (ds : List GMDataSeg)
  | callDrawText (ds : List GMDataSeg)
  | callDrawExtend (opts : List GraphicOption)
  | renderPointCircle (active : Bool) (x y : ℚ)
deriving DecidableEq, Repr

/-- `draw` of GraphicMark.js, at the granularity of renderer dispatch.
When past the initial placement state with at least one point it obtains
the graphic options from the `createGraphicOptions` hook and, for each
group whose `isDraw` is absent-or-true, dispatches by `type` — the source
invokes `this._drawLines` in both the LINE case and the TEXT case (the
TEXT branch at line 174 of GraphicMark.js).  Afterwards, when the hover
type is not NONE, every placed point is rendered as a circle, active
styling applying to the hovered point. -/
def GraphicMark.draw (env : Env)
    (createOpts : List TPPoint → List XYPoint → Option (List GraphicOption))
    (s : MarkState) : List MarkDrawEvent :=
  let xyPoints := s.tpPoints.map (toXY env)
  let ev1 :=
    if s.drawStep ≠ GRAPHIC_MARK_DRAW_STEP_START ∧ 0 < xyPoints.length then
      let graphicOptions := (createOpts s.tpPoints xyPoints).getD []
      (graphicOptions.foldr
        (fun g acc =>
          (if !(isValid g.isDraw) || g.isDraw.getD false then
            match g.type with
            | GraphicMarkDrawType.LINE => [MarkDrawEvent.callDrawLines g.dataSource]
            | GraphicMarkDrawType.TEXT => [MarkDrawEvent.callDrawLines g.dataSource]
          else []) ++ acc) [])
      ++ [MarkDrawEvent.callDrawExtend graphicOptions]
    else []
  let ev2 :=
    if s.hoverType ≠ HoverType.NONE then
      xyPoints.enum.map (fun ixy =>
        MarkDrawEvent.renderPointCircle
          (decide (s.hoverType = HoverType.POINT ∧ (ixy.1 : ℤ) = s.hoverIndex))
          ixy.2.x ixy.2.y)
    else []
  ev1 ++ ev2

/-! ## DrawWidget (src/widget/DrawWidget.ts) -/

/-- Modelled from the spec: the update levels (the `common/Updater` module
is not under src/).  Per the spec, the levels are MAIN (main canvas only),
OVERLAY (overlay canvas only) and ALL/DRAWER (both; DRAWER is the
resize-forced variant). -/
inductive UpdateLevel where
  | MAIN
  | OVERLAY
  | DRAWER
  | ALL
deriving DecidableEq, Repr

/-- What a scheduled redraw callback does when it runs: the three closures
`updateImp` can pass to `_optimalUpdate`. -/
inductive RedrawTask where
  | main
  | overlay
  | both
deriving DecidableEq, Repr

/-- A canvas surface: CSS (logical) size and backing-store size. -/
structure CanvasState where
  styleW : ℚ
  styleH : ℚ
  width : ℤ
  height : ℤ
deriving DecidableEq, Repr

/-- The mutable state of a DrawWidget: container geometry (offset sizes
track the style sizes the widget assigns) plus the two canvases and the
pending animation-frame id (-1 = `DEFAULT_REQUEST_ID`). -/
structure WidgetState where
  containerLeft : ℚ
  containerW : ℚ
  containerH : ℚ
  mainCanvas : CanvasState
  overlayCanvas : CanvasState
  requestAnimationId : ℤ
deriving DecidableEq, Repr

/-- Modelled from the spec: the host's animation-frame scheduler (the
`common/utils/compatible` wrappers are not under src/).  Per the spec's
concurrency model, a request defers a callback to the next frame and
returns a cancellable handle; at most the registered callbacks run when
the frame fires. -/
structure RafState where
  nextId : ℤ
  pending : List (ℤ × RedrawTask)
deriving DecidableEq, Repr

/-- `cancelAnimationFrame`: removes the callback registered under the
given handle, if any. -/
def cancelAnimationFrame (raf : RafState) (id : ℤ) : RafState :=
  { raf with pending := raf.pending.filter (fun e => e.1 ≠ id) }

/-- `requestAnimationFrame`: registers a callback for the next frame and
returns a fresh handle. -/
def requestAnimationFrame (raf : RafState) (t : RedrawTask) : RafState × ℤ :=
  ({ nextId := raf.nextId + 1, pending := raf.pending ++ [(raf.nextId, t)] }, raf.nextId)

/-- Firing the next frame: the tasks that actually execute. -/
def fireFrames (raf : RafState) : List RedrawTask :=
  raf.pending.map Prod.snd

/-- `_optimalUpdate` of DrawWidget.ts: cancel the previously scheduled
callback (when one is outstanding), then schedule the new one and remember
its handle. -/
def optimalUpdate (w : WidgetState) (raf : RafState) (t : RedrawTask) :
    WidgetState × RafState :=
  let raf1 := if w.requestAnimationId ≠ -1 then cancelAnimationFrame raf w.requestAnimationId else raf
  let r2 := requestAnimationFrame raf1 t
  ({ w with requestAnimationId := r2.2 }, r2.1)

/-- The dispatch switch at the end of `updateImp`: which closure is
scheduled for each (possibly escalated) level. -/
def dispatchTask : UpdateLevel → RedrawTask
  | UpdateLevel.MAIN => RedrawTask.main
  | UpdateLevel.OVERLAY => RedrawTask.overlay
  | UpdateLevel.DRAWER => RedrawTask.both
  | UpdateLevel.ALL => RedrawTask.both

/-- Synchronous canvas operations `updateImp` performs before scheduling. -/
inductive CanvasOp where
  | clearMain
  | clearOverlay
  | resizeMain (styleW styleH : ℚ) (w h : ℤ)
  | scaleMain (r : ℚ)
  | resizeOverlay (styleW styleH : ℚ) (w h : ℤ)
  | scaleOverlay (r : ℚ)
deriving DecidableEq, Repr

/-- The bounding rectangle passed to `updateImp`. -/
structure Bounding where
  width : ℚ
  height : ℚ
  left : ℚ
deriving DecidableEq, Repr

/-- The result of one `updateImp` call: the new widget state, the new
scheduler state, and the synchronous canvas operations performed. -/
structure UpdateResult where
  widget : WidgetState
  raf : RafState
  ops : List CanvasOp
deriving DecidableEq, Repr

/-- `updateImp` of DrawWidget.ts.  `dpr` is the device pixel ratio
reported by the (external) `getPixelRatio` utility.  When the bounding
size differs from the container's current size, both canvases are cleared,
both backing stores are resized to `floor(size * dpr)` with CSS size kept
at the logical pixels, the scale is re-applied to both contexts and the
level is escalated to DRAWER; otherwise only the canvases implicated by
the requested level are cleared.  Finally exactly one redraw closure is
scheduled through `_optimalUpdate`. -/
def updateImp (dpr : ℚ) (w : WidgetState) (raf : RafState)
    (level : UpdateLevel) (b : Bounding) : UpdateResult :=
  let w := { w with containerLeft := b.left }
  let sizeFlag := b.width ≠ w.containerW ∨ b.height ≠ w.containerH
  let step1 : WidgetState × List CanvasOp × UpdateLevel :=
    if sizeFlag then
      let scaleWidth := Rat.floor (b.width * dpr)
      let scaleHeight := Rat.floor (b.height * dpr)
      let canvas : CanvasState :=
        { styleW := b.width, styleH := b.height, width := scaleWidth, height := scaleHeight }
      ({ w with containerW := b.width, containerH := b.height
                mainCanvas := canvas, overlayCanvas := canvas },
       [CanvasOp.clearMain, CanvasOp.clearOverlay,
        CanvasOp.resizeMain b.width b.height scaleWidth scaleHeight, CanvasOp.scaleMain dpr,
        CanvasOp.resizeOverlay b.width b.height scaleWidth scaleHeight, CanvasOp.scaleOverlay dpr],
       UpdateLevel.DRAWER)
    else
      (w,
       (if level = UpdateLevel.ALL ∨ level = UpdateLevel.DRAWER ∨ level = UpdateLevel.MAIN then
          [CanvasOp.clearMain]
        else []) ++
       (if level = UpdateLevel.ALL ∨ level = UpdateLevel.DRAWER ∨ level = UpdateLevel.OVERLAY then
          [CanvasOp.clearOverlay]
        else []),
       level)
  let dispatched := optimalUpdate step1.1 raf (dispatchTask step1.2.2)
  { widget := dispatched.1, raf := dispatched.2, ops := step1.2.1 }

/-- One call in a sequence of `updateImp` calls. -/
structure UpdateCall where
  level : UpdateLevel
  bounding : Bounding
deriving DecidableEq, Repr

/-- Threading one `updateImp` call through widget and scheduler state. -/
def updateStep (dpr : ℚ) (st : WidgetState × RafState) (c : UpdateCall) :
    WidgetState × RafState :=
  let r := updateImp dpr st.1 st.2 c.level c.bounding
  (r.widget, r.raf)

/-- A sequence of consecutive `updateImp` calls, none of whose scheduled
frames has fired yet. -/
def runCalls (dpr : ℚ) (st : WidgetState × RafState) (cs : List UpdateCall) :
    WidgetState × RafState :=
  cs.foldl (updateStep dpr) st

/-! ## CandleAreaView (unnamed source file of the repository) -/

/-- One gradient stop of the area background configuration. -/
structure GradientColor where
  offset : ℚ
  color : String
deriving DecidableEq, Repr

/-- The area background: either a single color or an array of gradient
stops. -/
inductive AreaBackground where
  | plain (c : String)
  | gradientStops (stops : List GradientColor)
deriving DecidableEq, Repr

/-- A visible data point as handed to `eachChildren`: `value` is
`kLineData?.[styles.value]` collapsed to `some` exactly when present and
numeric (the `isNumber` guard); `x` is the screen x; `dataIndex` indexes
the full series. -/
structure VisibleData where
  value : Option ℚ
  x : ℚ
  dataIndex : ℤ
deriving DecidableEq, Repr

/-- A screen coordinate of CandleAreaView. -/
structure Coordinate where
  x : ℚ
  y : ℚ
deriving DecidableEq, Repr

/-- The point styling of the candle area configuration (`show_` models
the source's `show` field, a Lean keyword). -/
structure PointStyles where
  show_ : Bool
  color : String
  radius : ℚ
  rippleColor : String
  rippleRadius : ℚ
  animation : Bool
  animationDuration : ℚ
deriving DecidableEq, Repr

/-- The candle area styles consumed by `drawImp`. -/
structure AreaStyles where
  lineColor : String
  lineSize : ℚ
  smooth : Bool
  backgroundColor : AreaBackground
  point : PointStyles
deriving DecidableEq, Repr

/-- The attrs of the retained ripple circle figure. -/
structure CircleAttrs where
  x : ℚ
  y : ℚ
  r : ℚ
deriving DecidableEq, Repr

/-- The fill style the area polygon is painted with: a plain color or the
(possibly partially built) linear gradient created over
`(0, bounding.height) .. (0, minY)`. -/
inductive FillColor where
  | plain (c : String)
  | gradient (y0 y1 : ℚ) (stops : List GradientColor)
deriving DecidableEq, Repr

/-- Observable events of one `CandleAreaView.drawImp` call. -/
inductive AreaEvent where
  | drawLineFigure (coords : List Coordinate) (color : String) (size : ℚ) (smooth : Bool)
  | logError
  | fillArea (color : FillColor) (startX : ℚ) (coords : List Coordinate)
  | drawPointCircle (x y r : ℚ) (color : String)
  | drawRippleCircle (x y r : ℚ) (color : String)
  | animationStart
  | animationStop
deriving DecidableEq, Repr

/-- `Number.MAX_SAFE_INTEGER`, the initial `minY`. -/
def maxSafeInteger : ℚ := 9007199254740991

/-- The gradient-stop `forEach` inside the try block: stops are added in
order until the first invalid one makes `addColorStop` throw, aborting the
iteration.  Returns the stops actually added and whether an exception was
thrown.  `stopOk` abstracts the host canvas API's validation of an
(offset, color) pair. -/
def addStops (stopOk : GradientColor → Bool) : List GradientColor → List GradientColor × Bool
  | [] => ([], false)
  | s :: rest =>
    if stopOk s then
      let r := addStops stopOk rest
      (s :: r.1, r.2)
    else ([], true)

/-- The accumulator of the `eachChildren` pass of `CandleAreaView.drawImp`. -/
structure AreaAcc where
  coordinates : List Coordinate
  minY : ℚ
  areaStartX : ℚ
  indicate : Option Coordinate
deriving DecidableEq, Repr

/-- One iteration of the `eachChildren` callback (lines 53-67 of the
view): a numeric value contributes a coordinate, updates `minY`, fixes
`areaStartX` at index 0 and records the indicator coordinate at the last
data index. -/
def areaScanStep (convertY : ℚ → ℚ) (lastDataIndex : ℤ) (acc : AreaAcc)
    (iv : ℕ × VisibleData) : AreaAcc :=
  match iv.2.value with
  | some v =>
    let y := convertY v
    { coordinates := acc.coordinates ++ [{ x := iv.2.x, y := y }]
      minY := min acc.minY y
      areaStartX := if iv.1 = 0 then iv.2.x else acc.areaStartX
      indicate := if iv.2.dataIndex = lastDataIndex then some { x := iv.2.x, y := y } else acc.indicate }
  | none => acc

/-- The whole `eachChildren` pass. -/
def areaScan (convertY : ℚ → ℚ) (lastDataIndex : ℤ) (children : List VisibleData) : AreaAcc :=
  children.enum.foldl (areaScanStep convertY lastDataIndex)
    { coordinates := [], minY := maxSafeInteger, areaStartX := 0, indicate := none }

/-- `CandleAreaView.drawImp`, as the list of paint events it performs plus
the new retained-figure slot.  The gradient branch mirrors the source's
try/catch: a throw inside the stop loop is caught and logged, and the
partially built gradient is still used as the fill style; the area fill
and the indicator-point/ripple block then proceed normally. -/
def candleAreaDrawImp (convertY : ℚ → ℚ) (stopOk : GradientColor → Bool)
    (dataListLength : ℕ) (children : List VisibleData) (boundingHeight : ℚ)
    (styles : AreaStyles) (animationFrameTime : ℚ)
    (figureSlot : Option CircleAttrs) : List AreaEvent × Option CircleAttrs :=
  let lastDataIndex : ℤ := (dataListLength : ℤ) - 1
  let acc := areaScan convertY lastDataIndex children
  let ev1 : List AreaEvent :=
    if 0 < acc.coordinates.length then
      [AreaEvent.drawLineFigure acc.coordinates styles.lineColor styles.lineSize styles.smooth] ++
      (match styles.backgroundColor with
       | AreaBackground.gradientStops stops =>
         let added := addStops stopOk stops
         (if added.2 then [AreaEvent.logError] else []) ++
         [AreaEvent.fillArea (FillColor.gradient boundingHeight acc.minY added.1)
            acc.areaStartX acc.coordinates]
       | AreaBackground.plain c =>
         [AreaEvent.fillArea (FillColor.plain c) acc.areaStartX acc.coordinates])
    else []
  let ps := styles.point
  if ps.show_ ∧ acc.indicate.isSome then
    let ip := acc.indicate.getD { x := 0, y := 0 }
    let rippleR :=
      if ps.animation then
        ps.radius + animationFrameTime / ps.animationDuration * (ps.rippleRadius - ps.radius)
      else ps.rippleRadius
    let startEv := if ps.animation then [AreaEvent.animationStart] else []
    let slot1 : Option CircleAttrs :=
      match figureSlot with
      | none => some { x := ip.x, y := ip.y, r := ps.rippleRadius }
      | some _ => some { x := ip.x, y := ip.y, r := rippleR }
    let rippleEv :=
      match slot1 with
      | some a => [AreaEvent.drawRippleCircle a.x a.y a.r ps.rippleColor]
      | none => []
    (ev1 ++ [AreaEvent.drawPointCircle ip.x ip.y ps.radius ps.color] ++
       startEv ++ rippleEv ++ startEv, slot1)
  else
    (ev1 ++ [AreaEvent.animationStop], figureSlot)

/-! ## C4 — animation-frame coalescing -/

/-- The coalescing invariant of one widget: either no redraw is
outstanding and no handle is remembered, or exactly one callback is
pending, registered under the remembered (non-default) handle; handles are
issued from a nonnegative counter. -/
def CoalesceInv (st : WidgetState × RafState) : Prop :=
  0 ≤ st.2.nextId ∧
  ((st.1.requestAnimationId = -1 ∧ st.2.pending = []) ∨
   (st.1.requestAnimationId ≠ -1 ∧ ∃ t, st.2.pending = [(st.1.requestAnimationId, t)]))

/-- `_optimalUpdate` from an invariant state: the previous pending
callback (if any) is cancelled, and afterwards exactly the new task is
pending under the new handle. -/
theorem optimalUpdate_spec (w : WidgetState) (raf : RafState) (t : RedrawTask)
    (h : CoalesceInv (w, raf)) :
    CoalesceInv (optimalUpdate w raf t) ∧
    (optimalUpdate w raf t).2.pending =
      [((optimalUpdate w raf t).1.requestAnimationId, t)] ∧
    (optimalUpdate w raf t).2.pending.map Prod.snd = [t] := by
  obtain ⟨hn, hc⟩ := h
  replace hn : 0 ≤ raf.nextId := hn
  replace hc : (w.requestAnimationId = -1 ∧ raf.pending = []) ∨
      (w.requestAnimationId ≠ -1 ∧ ∃ t2, raf.pending = [(w.requestAnimationId, t2)]) := hc
  have hp1 : (if w.requestAnimationId ≠ -1 then
      cancelAnimationFrame raf w.requestAnimationId else raf).pending = [] := by
    rcases hc with ⟨h1, h2⟩ | ⟨h1, t2, h2⟩
    · rw [if_neg (not_not_intro h1)]
      exact h2
    · rw [if_pos h1]
      simp [cancelAnimationFrame, h2]
  have hp2 : (if w.requestAnimationId ≠ -1 then
      cancelAnimationFrame raf w.requestAnimationId else raf).nextId = raf.nextId := by
    split <;> rfl
  have hres : optimalUpdate w raf t =
      ({ w with requestAnimationId := raf.nextId },
       { nextId := raf.nextId + 1, pending := [(raf.nextId, t)] }) := by
    simp only [optimalUpdate, requestAnimationFrame]
    rw [hp1, hp2]
    simp
  rw [hres]
  refine ⟨⟨?_, Or.inr ⟨?_, t, rfl⟩⟩, rfl, rfl⟩
  · show 0 ≤ raf.nextId + 1
    omega
  · show ¬ raf.nextId = -1
    omega

/-- `_optimalUpdate` on a fresh widget (no outstanding handle, empty
queue) leaves exactly the new task pending. -/
theorem optimalUpdate_fresh (w : WidgetState) (raf : RafState) (t : RedrawTask)
    (h1 : w.requestAnimationId = -1) (h2 : raf.pending = []) :
    (optimalUpdate w raf t).2.pending = [(raf.nextId, t)] := by
  simp [optimalUpdate, requestAnimationFrame, h1, h2]

/-- One `updateImp` call from an invariant state preserves the invariant
and leaves exactly one pending redraw: the one implied by the requested
level, escalated to DRAWER when the bounding size differs from the
container's current size. -/
theorem updateImp_spec (dpr : ℚ) (w : WidgetState) (raf : RafState)
    (level : UpdateLevel) (b : Bounding) (h : CoalesceInv (w, raf)) :
    CoalesceInv ((updateImp dpr w raf level b).widget, (updateImp dpr w raf level b).raf) ∧
    (updateImp dpr w raf level b).raf.pending.map Prod.snd =
      [dispatchTask (if b.width ≠ w.containerW ∨ b.height ≠ w.containerH
                     then UpdateLevel.DRAWER else level)] := by
  by_cases hsf : b.width ≠ w.containerW ∨ b.height ≠ w.containerH
  · rw [if_pos hsf]
    have hop := optimalUpdate_spec
      ({ w with containerLeft := b.left, containerW := b.width, containerH := b.height
                mainCanvas :=
                  { styleW := b.width, styleH := b.height
                    width := Rat.floor (b.width * dpr), height := Rat.floor (b.height * dpr) }
                overlayCanvas :=
                  { styleW := b.width, styleH := b.height
                    width := Rat.floor (b.width * dpr), height := Rat.floor (b.height * dpr) } })
      raf RedrawTask.both h
    have hform : updateImp dpr w raf level b =
        { widget := (optimalUpdate
            ({ w with containerLeft := b.left, containerW := b.width, containerH := b.height
                      mainCanvas :=
                        { styleW := b.width, styleH := b.height
                          width := Rat.floor (b.width * dpr)
                          height := Rat.floor (b.height * dpr) }
                      overlayCanvas :=
                        { styleW := b.width, styleH := b.height
                          width := Rat.floor (b.width * dpr)
                          height := Rat.floor (b.height * dpr) } })
            raf RedrawTask.both).1
          raf := (optimalUpdate
            ({ w with containerLeft := b.left, containerW := b.width, containerH := b.height
                      mainCanvas :=
                        { styleW := b.width, styleH := b.height
                          width := Rat.floor (b.width * dpr)
                          height := Rat.floor (b.height * dpr) }
                      overlayCanvas :=
                        { styleW := b.width, styleH := b.height
                          width := Rat.floor (b.width * dpr)
                          height := Rat.floor (b.height * dpr) } })
            raf RedrawTask.both).2
          ops := [CanvasOp.clearMain, CanvasOp.clearOverlay,
                  CanvasOp.resizeMain b.width b.height
                    (Rat.floor (b.width * dpr)) (Rat.floor (b.height * dpr)),
                  CanvasOp.scaleMain dpr,
                  CanvasOp.resizeOverlay b.width b.height
                    (Rat.floor (b.width * dpr)) (Rat.floor (b.height * dpr)),
                  CanvasOp.scaleOverlay dpr] } := by
      simp only [updateImp]
      rw [if_pos (by simpa using hsf)]
      rfl
    rw [hform]
    exact ⟨hop.1, hop.2.2⟩
  · rw [if_neg hsf]
    have hop := optimalUpdate_spec ({ w with containerLeft := b.left }) raf
      (dispatchTask level) h
    have hform : (updateImp dpr w raf level b).widget =
          (optimalUpdate ({ w with containerLeft := b.left }) raf (dispatchTask level)).1 ∧
        (updateImp dpr w raf level b).raf =
          (optimalUpdate ({ w with containerLeft := b.left }) raf (dispatchTask level)).2 := by
      simp only [updateImp]
      rw [if_neg (by simpa using hsf)]
      exact ⟨rfl, rfl⟩
    rw [hform.1, hform.2]
    exact ⟨hop.1, hop.2.2⟩

/-- A state satisfying `CoalesceInv` has at most one pending callback. -/
theorem CoalesceInv.pending_le_one {st : WidgetState × RafState} (h : CoalesceInv st) :
    st.2.pending.length ≤ 1 := by
  rcases h.2 with ⟨-, h2⟩ | ⟨-, t, h2⟩ <;> simp [h2]

/-- `runCalls` preserves the coalescing invariant. -/
theorem runCalls_inv (dpr : ℚ) : ∀ (cs : List UpdateCall) (st : WidgetState × RafState),
    CoalesceInv st → CoalesceInv (runCalls dpr st cs) := by
  intro cs
  induction cs with
  | nil => intro st h; exact h
  | cons c rest ih =>
    intro st h
    have h1 := (updateImp_spec dpr st.1 st.2 c.level c.bounding h).1
    exact ih (updateStep dpr st c) h1

/-- Claim C4: starting from a widget with no scheduled redraw, any
nonempty sequence of consecutive `updateImp` calls issued before the
scheduled frame fires keeps at most one pending animation-frame handle
after every prefix of the sequence, and firing the frame at the end
executes exactly one redraw callback — the one implied by the last call's
level, escalated to DRAWER when that call observed a size change. -/
theorem C4_coalesced_redraws (dpr : ℚ) (w0 : WidgetState) (raf0 : RafState)
    (cs : List UpdateCall) (lastC : UpdateCall)
    (h0 : w0.requestAnimationId = -1 ∧ raf0.pending = [] ∧ 0 ≤ raf0.nextId) :
    (∀ k : ℕ,
      (runCalls dpr (w0, raf0) ((cs ++ [lastC]).take k)).2.pending.length ≤ 1) ∧
    fireFrames (runCalls dpr (w0, raf0) (cs ++ [lastC])).2 =
      [dispatchTask
        (if lastC.bounding.width ≠ (runCalls dpr (w0, raf0) cs).1.containerW ∨
            lastC.bounding.height ≠ (runCalls dpr (w0, raf0) cs).1.containerH
         then UpdateLevel.DRAWER else lastC.level)] := by
  have hinv0 : CoalesceInv (w0, raf0) := ⟨h0.2.2, Or.inl ⟨h0.1, h0.2.1⟩⟩
  constructor
  · intro k
    exact (runCalls_inv dpr ((cs ++ [lastC]).take k) (w0, raf0) hinv0).pending_le_one
  · have hmid := runCalls_inv dpr cs (w0, raf0) hinv0
    have hsplit : runCalls dpr (w0, raf0) (cs ++ [lastC]) =
        updateStep dpr (runCalls dpr (w0, raf0) cs) lastC := by
      simp [runCalls, List.foldl_append]
    rw [hsplit]
    exact (updateImp_spec dpr (runCalls dpr (w0, raf0) cs).1
      (runCalls dpr (w0, raf0) cs).2 lastC.level lastC.bounding hmid).2

/-- A concrete fresh widget used by the DrawWidget witnesses. -/
def w0ex : WidgetState :=
  { containerLeft := 0
    containerW := 100
    containerH := 50
    mainCanvas := { styleW := 100, styleH := 50, width := 100, height := 50 }
    overlayCanvas := { styleW := 100, styleH := 50, width := 100, height := 50 }
    requestAnimationId := -1 }

/-- A concrete fresh scheduler used by the DrawWidget witnesses. -/
def raf0ex : RafState := { nextId := 0, pending := [] }

/-- Witness for C4: two calls at the same bounding as the container —
after both, exactly the last call's overlay-level redraw fires. -/
theorem C4_coalesced_redraws_witness :
    fireFrames (runCalls 2 (w0ex, raf0ex)
      ([{ level := UpdateLevel.MAIN, bounding := { width := 100, height := 50, left := 0 } }] ++
       [{ level := UpdateLevel.OVERLAY,
          bounding := { width := 100, height := 50, left := 0 } }])).2 =
      [dispatchTask
        (if (({ width := 100, height := 50, left := 0 } : Bounding)).width ≠
              (runCalls 2 (w0ex, raf0ex)
                [{ level := UpdateLevel.MAIN,
                   bounding := { width := 100, height := 50, left := 0 } }]).1.containerW ∨
            (({ width := 100, height := 50, left := 0 } : Bounding)).height ≠
              (runCalls 2 (w0ex, raf0ex)
                [{ level := UpdateLevel.MAIN,
                   bounding := { width := 100, height := 50, left := 0 } }]).1.containerH
         then UpdateLevel.DRAWER else UpdateLevel.OVERLAY)] := by
  exact (C4_coalesced_redraws 2 w0ex raf0ex
    [{ level := UpdateLevel.MAIN, bounding := { width := 100, height := 50, left := 0 } }]
    { level := UpdateLevel.OVERLAY, bounding := { width := 100, height := 50, left := 0 } }
    ⟨rfl, rfl, by norm_num [raf0ex]⟩).2

/-! ## C5 — resize forces a full redraw -/

/-- The canvases the spec says are implicated by each requested level. -/
def clearsFor : UpdateLevel → List CanvasOp
  | UpdateLevel.MAIN => [CanvasOp.clearMain]
  | UpdateLevel.OVERLAY => [CanvasOp.clearOverlay]
  | UpdateLevel.DRAWER => [CanvasOp.clearMain, CanvasOp.clearOverlay]
  | UpdateLevel.ALL => [CanvasOp.clearMain, CanvasOp.clearOverlay]

/-- Claim C5: when the bounding size differs from the container's current
size, `updateImp` clears both canvases, resizes both backing stores to
`floor(size * devicePixelRatio)` while keeping the CSS size at the logical
pixels, re-applies the pixel-ratio scale to both contexts, and schedules
the strongest redraw (both main and overlay) regardless of the requested
level; when the size is unchanged, only the canvases implicated by the
requested level are cleared, the canvases are otherwise untouched, and the
redraw scheduled matches the requested level. -/
theorem C5_resize_forces_full_redraw (dpr : ℚ) (w : WidgetState) (raf : RafState)
    (level : UpdateLevel) (b : Bounding)
    (hfresh : w.requestAnimationId = -1 ∧ raf.pending = []) :
    ((b.width ≠ w.containerW ∨ b.height ≠ w.containerH) →
      (updateImp dpr w raf level b).ops =
        [CanvasOp.clearMain, CanvasOp.clearOverlay,
         CanvasOp.resizeMain b.width b.height
           (Rat.floor (b.width * dpr)) (Rat.floor (b.height * dpr)),
         CanvasOp.scaleMain dpr,
         CanvasOp.resizeOverlay b.width b.height
           (Rat.floor (b.width * dpr)) (Rat.floor (b.height * dpr)),
         CanvasOp.scaleOverlay dpr] ∧
      (updateImp dpr w raf level b).widget.mainCanvas =
        { styleW := b.width, styleH := b.height
          width := Rat.floor (b.width * dpr), height := Rat.floor (b.height * dpr) } ∧
      (updateImp dpr w raf level b).widget.overlayCanvas =
        { styleW := b.width, styleH := b.height
          width := Rat.floor (b.width * dpr), height := Rat.floor (b.height * dpr) } ∧
      fireFrames (updateImp dpr w raf level b).raf = [RedrawTask.both]) ∧
    ((b.width = w.containerW ∧ b.height = w.containerH) →
      (updateImp dpr w raf level b).ops = clearsFor level ∧
      (updateImp dpr w raf level b).widget.mainCanvas = w.mainCanvas ∧
      (updateImp dpr w raf level b).widget.overlayCanvas = w.overlayCanvas ∧
      fireFrames (updateImp dpr w raf level b).raf = [dispatchTask level]) := by
  constructor
  · intro hsf
    have hform : updateImp dpr w raf level b =
        { widget := (optimalUpdate
            ({ w with containerLeft := b.left, containerW := b.width, containerH := b.height
                      mainCanvas :=
                        { styleW := b.width, styleH := b.height
                          width := Rat.floor (b.width * dpr)
                          height := Rat.floor (b.height * dpr) }
                      overlayCanvas :=
                        { styleW := b.width, styleH := b.height
                          width := Rat.floor (b.width * dpr)
                          height := Rat.floor (b.height * dpr) } })
            raf RedrawTask.both).1
          raf := (optimalUpdate
            ({ w with containerLeft := b.left, containerW := b.width, containerH := b.height
                      mainCanvas :=
                        { styleW := b.width, styleH := b.height
                          width := Rat.floor (b.width * dpr)
                          height := Rat.floor (b.height * dpr) }
                      overlayCanvas :=
                        { styleW := b.width, styleH := b.height
                          width := Rat.floor (b.width * dpr)
                          height := Rat.floor (b.height * dpr) } })
            raf RedrawTask.both).2
          ops := [CanvasOp.clearMain, CanvasOp.clearOverlay,
                  CanvasOp.resizeMain b.width b.height
                    (Rat.floor (b.width * dpr)) (Rat.floor (b.height * dpr)),
                  CanvasOp.scaleMain dpr,
                  CanvasOp.resizeOverlay b.width b.height
                    (Rat.floor (b.width * dpr)) (Rat.floor (b.height * dpr)),
                  CanvasOp.scaleOverlay dpr] } := by
      simp only [updateImp]
      rw [if_pos (by simpa using hsf)]
      rfl
    rw [hform]
    refine ⟨rfl, rfl, rfl, ?_⟩
    have := optimalUpdate_fresh
      ({ w with containerLeft := b.left, containerW := b.width, containerH := b.height
                mainCanvas :=
                  { styleW := b.width, styleH := b.height
                    width := Rat.floor (b.width * dpr), height := Rat.floor (b.height * dpr) }
                overlayCanvas :=
                  { styleW := b.width, styleH := b.height
                    width := Rat.floor (b.width * dpr), height := Rat.floor (b.height * dpr) } })
      raf RedrawTask.both hfresh.1 hfresh.2
    rw [fireFrames, this]
    rfl
  · intro hsame
    have hnsf : ¬ (b.width ≠ w.containerW ∨ b.height ≠ w.containerH) := by
      push_neg
      exact hsame
    have hform : (updateImp dpr w raf level b).widget =
          (optimalUpdate ({ w with containerLeft := b.left }) raf (dispatchTask level)).1 ∧
        (updateImp dpr w raf level b).raf =
          (optimalUpdate ({ w with containerLeft := b.left }) raf (dispatchTask level)).2 ∧
        (updateImp dpr w raf level b).ops =
          ((if level = UpdateLevel.ALL ∨ level = UpdateLevel.DRAWER ∨ level = UpdateLevel.MAIN
            then [CanvasOp.clearMain] else []) ++
           (if level = UpdateLevel.ALL ∨ level = UpdateLevel.DRAWER ∨ level = UpdateLevel.OVERLAY
            then [CanvasOp.clearOverlay] else [])) := by
      simp only [updateImp]
      rw [if_neg (by simpa using hnsf)]
      exact ⟨rfl, rfl, rfl⟩
    refine ⟨?_, ?_, ?_, ?_⟩
    · rw [hform.2.2]
      cases level <;> rfl
    · rw [hform.1]
      rfl
    · rw [hform.1]
      rfl
    · rw [hform.2.1]
      rw [fireFrames, optimalUpdate_fresh ({ w with containerLeft := b.left }) raf
        (dispatchTask level) hfresh.1 hfresh.2]
      rfl

/-- Witness for C5: a resize from container size (100, 50) to bounding
(300, 150) under pixel ratio 2 performs the full clear/resize/scale
sequence and schedules a redraw of both canvases, for a MAIN-level
request. -/
theorem C5_resize_forces_full_redraw_witness :
    (updateImp 2 w0ex raf0ex UpdateLevel.MAIN
        { width := 300, height := 150, left := 0 }).ops =
      [CanvasOp.clearMain, CanvasOp.clearOverlay,
       CanvasOp.resizeMain 300 150 (Rat.floor ((300 : ℚ) * 2)) (Rat.floor ((150 : ℚ) * 2)),
       CanvasOp.scaleMain 2,
       CanvasOp.resizeOverlay 300 150 (Rat.floor ((300 : ℚ) * 2)) (Rat.floor ((150 : ℚ) * 2)),
       CanvasOp.scaleOverlay 2] ∧
    fireFrames (updateImp 2 w0ex raf0ex UpdateLevel.MAIN
        { width := 300, height := 150, left := 0 }).raf = [RedrawTask.both] := by
  have h := (C5_resize_forces_full_redraw 2 w0ex raf0ex UpdateLevel.MAIN
    { width := 300, height := 150, left := 0 } ⟨rfl, rfl⟩).1
    (Or.inl (by norm_num [w0ex]))
  exact ⟨h.1, h.2.2.2⟩

/-! ## C9 — gradient construction errors are contained -/

/-- The stop loop adds exactly the longest valid front segment of the
stop list, and throws exactly when some stop is invalid. -/
theorem addStops_eq (stopOk : GradientColor → Bool) : ∀ stops : List GradientColor,
    addStops stopOk stops = (stops.takeWhile stopOk, !stops.all stopOk) := by
  intro stops
  induction stops with
  | nil => rfl
  | cons s rest ih =>
    cases hs : stopOk s with
    | true => simp [addStops, hs, List.takeWhile_cons, ih]
    | false => simp [addStops, hs, List.takeWhile_cons]

/-- Claim C9: when the area background is a gradient-stop array containing
an invalid stop (so that `addColorStop` throws mid-loop) and the visible
window produced at least one coordinate, `CandleAreaView.drawImp` logs the
caught error locally, still fills the area with the partially built
gradient (the valid front segment of the stop list), and the rest of the
draw pass — in particular the indicator point when its own conditions hold
— still executes; no exception escapes the call (the event trace is
produced normally). -/
theorem C9_gradient_error_contained (convertY : ℚ → ℚ) (stopOk : GradientColor → Bool)
    (dataListLength : ℕ) (children : List VisibleData) (boundingHeight : ℚ)
    (styles : AreaStyles) (t : ℚ) (slot : Option CircleAttrs) (stops : List GradientColor)
    (hbg : styles.backgroundColor = AreaBackground.gradientStops stops)
    (hbad : stops.all stopOk = false)
    (hcoords : 0 <
      (areaScan convertY ((dataListLength : ℤ) - 1) children).coordinates.length) :
    AreaEvent.logError ∈
      (candleAreaDrawImp convertY stopOk dataListLength children boundingHeight
        styles t slot).1 ∧
    AreaEvent.fillArea
        (FillColor.gradient boundingHeight
          (areaScan convertY ((dataListLength : ℤ) - 1) children).minY
          (stops.takeWhile stopOk))
        (areaScan convertY ((dataListLength : ℤ) - 1) children).areaStartX
        (areaScan convertY ((dataListLength : ℤ) - 1) children).coordinates ∈
      (candleAreaDrawImp convertY stopOk dataListLength children boundingHeight
        styles t slot).1 ∧
    (styles.point.show_ = true ∧
        (areaScan convertY ((dataListLength : ℤ) - 1) children).indicate.isSome = true →
      AreaEvent.drawPointCircle
          ((areaScan convertY ((dataListLength : ℤ) - 1) children).indicate.getD
            { x := 0, y := 0 }).x
          ((areaScan convertY ((dataListLength : ℤ) - 1) children).indicate.getD
            { x := 0, y := 0 }).y
          styles.point.radius styles.point.color ∈
        (candleAreaDrawImp convertY stopOk dataListLength children boundingHeight
          styles t slot).1) := by
  have hsnd : (addStops stopOk stops).2 = true := by
    rw [addStops_eq, hbad]
    rfl
  have hfst : (addStops stopOk stops).1 = stops.takeWhile stopOk := by
    rw [addStops_eq]
  simp only [candleAreaDrawImp, hbg, hsnd, hfst]
  rw [if_pos hcoords]
  by_cases hp : styles.point.show_ = true ∧
      (areaScan convertY ((dataListLength : ℤ) - 1) children).indicate.isSome = true
  · rw [if_pos hp]
    refine ⟨?_, ?_, ?_⟩
    · simp
    · simp
    · intro _
      simp
  · rw [if_neg hp]
    refine ⟨?_, ?_, ?_⟩
    · simp
    · simp
    · intro hc
      exact absurd hc hp

/-- Gradient stops used by the C9 witness: the second stop's offset 2 is
outside [0, 1], so the host's `addColorStop` would throw on it. -/
def stopsW : List GradientColor :=
  [{ offset := 0, color := "red" }, { offset := 2, color := "blue" }]

/-- Host validation of a gradient stop: the offset must lie in [0, 1]. -/
def stopOkW : GradientColor → Bool := fun g => 0 ≤ g.offset ∧ g.offset ≤ 1

/-- One visible point with a numeric value at the last data index. -/
def childrenW : List VisibleData := [{ value := some 5, x := 1, dataIndex := 0 }]

/-- Concrete area styles with a bad gradient stop and a visible point. -/
def stylesW : AreaStyles :=
  { lineColor := "green"
    lineSize := 1
    smooth := false
    backgroundColor := AreaBackground.gradientStops stopsW
    point := { show_ := true, color := "white", radius := 2, rippleColor := "gray"
               rippleRadius := 4, animation := false, animationDuration := 10 } }

/-- Witness for C9: with the invalid second stop, the concrete draw pass
logs the error and continues. -/
theorem C9_gradient_error_contained_witness :
    AreaEvent.logError ∈
      (candleAreaDrawImp (fun q => q) stopOkW 1 childrenW 100 stylesW 0 none).1 := by
  exact (C9_gradient_error_contained (fun q => q) stopOkW 1 childrenW 100 stylesW 0 none
    stopsW rfl (by decide) (by decide)).1

/-! ## Concrete collaborators used by scenario theorems and witnesses -/

/-- A concrete axis/data-store environment: ten pixels per data index,
identity y-axis, a thousand milliseconds per data index. -/
def env0 : Env :=
  { convertToPixelX := fun i => ((i * 10 : ℤ) : ℚ)
    convertFromPixelX := fun q => Rat.floor q / 10
    convertToPixelY := fun q => q
    convertFromPixelY := fun q => q
    timestampToDataIndex := fun t => t / 1000
    dataIndexToTimestamp := fun i => some (i * 1000) }

/-! ## C1 — draw dispatch of TEXT groups -/

/-- The data source of a concrete TEXT group. -/
def dsC1 : List GMDataSeg := [GMDataSeg.txt { x := 5, y := 6, text := "abc" }]

/-- A single TEXT graphic option with `isDraw` absent. -/
def optsC1 : List GraphicOption :=
  [{ type := GraphicMarkDrawType.TEXT, isDraw := none, isCheck := false, dataSource := dsC1 }]

/-- A finished mark with one placed point. -/
def sC1 : MarkState :=
  { id := "m1"
    name := "mark1"
    totalStep := 3
    drawStep := GRAPHIC_MARK_DRAW_STEP_FINISHED
    tpPoints := [{ timestamp := some 1000, dataIndex := 1, price := 7 }]
    hoverType := HoverType.NONE
    hoverIndex := -1 }

/-- Claim C1 (code bug evidence): for a finished mark whose extension hook
returns a single drawable group tagged TEXT with `isDraw` absent, `draw`
dispatches the group to the line-segment renderer (`_drawLines`), and no
call to the text renderer (`_drawText`) occurs — the TEXT branch of the
switch in GraphicMark.js line 174 invokes `this._drawLines`, while the
claim (and the unused `_drawText` method) say the text renderer. -/
theorem C1_text_group_dispatched_to_line_renderer :
    GraphicMark.draw env0 (fun _ _ => some optsC1) sC1 =
      [MarkDrawEvent.callDrawLines dsC1, MarkDrawEvent.callDrawExtend optsC1] ∧
    ∀ ds, MarkDrawEvent.callDrawText ds ∉ GraphicMark.draw env0 (fun _ _ => some optsC1) sC1 := by
  have h1 : GraphicMark.draw env0 (fun _ _ => some optsC1) sC1 =
      [MarkDrawEvent.callDrawLines dsC1, MarkDrawEvent.callDrawExtend optsC1] := by rfl
  refine ⟨h1, ?_⟩
  intro ds hds
  rw [h1] at hds
  simp at hds

/-! ## C2 — two-point scenario -/

/-- The initial state of the claim's scenario: `totalStep = 2`. -/
def sC2start : MarkState := initMark "c2" "twoPointMark" 2

/-- Claim C2 counterexample: with `totalStep = 2`, placing the first point
at pixel (100, 50) and clicking once transitions directly to FINISHED with
one placed point — not to `PLACING(2)` as the claim states, because the
click guard `drawStep === totalStep - 1` already holds at the initial step
1. -/
theorem C2_counterexample_first_click_finishes :
    (mouseLeftButtonDownForDrawing
        (mouseMoveForDrawing env0 sC2start { x := 100, y := 50 })).drawStep =
      GRAPHIC_MARK_DRAW_STEP_FINISHED ∧
    (mouseLeftButtonDownForDrawing
        (mouseMoveForDrawing env0 sC2start { x := 100, y := 50 })).drawStep ≠ 2 ∧
    (mouseLeftButtonDownForDrawing
        (mouseMoveForDrawing env0 sC2start { x := 100, y := 50 })).tpPoints.length = 1 := by
  decide

/-- The initial state of the amended scenario: `totalStep = 3`. -/
def sC2a0 : MarkState := initMark "c2" "twoPointMark" 3

/-- State after the first mouse move to (100, 50) and confirming click. -/
def sC2a1 : MarkState :=
  mouseLeftButtonDownForDrawing (mouseMoveForDrawing env0 sC2a0 { x := 100, y := 50 })

/-- State after the subsequent mouse move to (200, 80). -/
def sC2a2 : MarkState := mouseMoveForDrawing env0 sC2a1 { x := 200, y := 80 }

/-- State after the second confirming click. -/
def sC2a3 : MarkState := mouseLeftButtonDownForDrawing sC2a2

/-- Claim C2 (amended): for a two-point mark, which the code realises with
`totalStep = 3`, in its initial state `PLACING(1)`: a first confirming
click after placing a point derived from pixel (100, 50) leaves the mark
in `PLACING(2)` with one placed point; a mouse move to (200, 80) sets
`points[1]` and keeps `PLACING(2)`; a second confirming click transitions
to FINISHED with two points. -/
theorem C2_amended_two_point_scenario :
    sC2a1.drawStep = 2 ∧
    sC2a1.tpPoints = [{ timestamp := some 10000, dataIndex := 10, price := 50 }] ∧
    sC2a2.drawStep = 2 ∧
    sC2a2.tpPoints = [{ timestamp := some 10000, dataIndex := 10, price := 50 },
                      { timestamp := some 20000, dataIndex := 20, price := 80 }] ∧
    sC2a3.drawStep = GRAPHIC_MARK_DRAW_STEP_FINISHED ∧
    sC2a3.tpPoints.length = 2 := by
  decide

/-! ## C3 — placement monotonicity -/

/-- A sequence of mouse moves during one placement step. -/
def moveSeq (env : Env) (s : MarkState) (ps : List XYPoint) : MarkState :=
  ps.foldl (mouseMoveForDrawing env) s

/-- One placement round: the mouse moves tracking the current point,
followed by the confirming click. -/
def clickRound (env : Env) (s : MarkState) (ps : List XYPoint) : MarkState :=
  mouseLeftButtonDownForDrawing (moveSeq env s ps)

/-- A sequence of placement rounds. -/
def runRounds (env : Env) (s : MarkState) (rs : List (List XYPoint)) : MarkState :=
  rs.foldl (clickRound env) s

theorem mouseMove_drawStep (env : Env) (s : MarkState) (p : XYPoint) :
    (mouseMoveForDrawing env s p).drawStep = s.drawStep := rfl

theorem mouseMove_totalStep (env : Env) (s : MarkState) (p : XYPoint) :
    (mouseMoveForDrawing env s p).totalStep = s.totalStep := rfl

/-- A mouse move whose write index equals the current length appends the
tracked point. -/
theorem mouseMove_length_append (env : Env) (s : MarkState) (p : XYPoint)
    (h : s.drawStep = (s.tpPoints.length : ℤ) + 1) :
    (mouseMoveForDrawing env s p).tpPoints.length = s.tpPoints.length + 1 := by
  have h0 : 0 ≤ s.drawStep - 1 := by omega
  have hlt : ¬ (s.drawStep - 1).toNat < s.tpPoints.length := by omega
  have heq : (s.drawStep - 1).toNat = s.tpPoints.length := by omega
  simp only [mouseMoveForDrawing, jsArraySet]
  rw [if_pos h0, if_neg hlt, if_pos heq]
  simp

/-- A mouse move whose write index is already in range overwrites in
place and keeps the length. -/
theorem mouseMove_length_set (env : Env) (s : MarkState) (p : XYPoint)
    (h1 : 1 ≤ s.drawStep) (h2 : s.drawStep ≤ (s.tpPoints.length : ℤ)) :
    (mouseMoveForDrawing env s p).tpPoints.length = s.tpPoints.length := by
  have h0 : 0 ≤ s.drawStep - 1 := by omega
  have hlt : (s.drawStep - 1).toNat < s.tpPoints.length := by omega
  simp only [mouseMoveForDrawing, jsArraySet]
  rw [if_pos h0, if_pos hlt]
  simp

/-- Repeated moves at an in-range step keep length, step underway and
total step. -/
theorem moveSeq_preserve (env : Env) (ps : List XYPoint) : ∀ s : MarkState,
    1 ≤ s.drawStep → s.drawStep ≤ (s.tpPoints.length : ℤ) →
    (moveSeq env s ps).tpPoints.length = s.tpPoints.length ∧
    (moveSeq env s ps).drawStep = s.drawStep ∧
    (moveSeq env s ps).totalStep = s.totalStep := by
  induction ps with
  | nil => intro s _ _; exact ⟨rfl, rfl, rfl⟩
  | cons p rest ih =>
    intro s h1 h2
    have hlen := mouseMove_length_set env s p h1 h2
    have ih2 := ih (mouseMoveForDrawing env s p)
      (by rw [mouseMove_drawStep]; exact h1)
      (by rw [mouseMove_drawStep, hlen]; exact h2)
    refine ⟨?_, ?_, ?_⟩
    · rw [moveSeq, List.foldl_cons, ← moveSeq, ih2.1, hlen]
    · rw [moveSeq, List.foldl_cons, ← moveSeq, ih2.2.1, mouseMove_drawStep]
    · rw [moveSeq, List.foldl_cons, ← moveSeq, ih2.2.2, mouseMove_totalStep]

/-- A nonempty move sequence at the fresh step appends exactly one point. -/
theorem moveSeq_cons_spec (env : Env) (s : MarkState) (p : XYPoint) (rest : List XYPoint)
    (h : s.drawStep = (s.tpPoints.length : ℤ) + 1) :
    (moveSeq env s (p :: rest)).tpPoints.length = s.tpPoints.length + 1 ∧
    (moveSeq env s (p :: rest)).drawStep = s.drawStep ∧
    (moveSeq env s (p :: rest)).totalStep = s.totalStep := by
  have hlen := mouseMove_length_append env s p h
  have hpre := moveSeq_preserve env rest (mouseMoveForDrawing env s p)
    (by rw [mouseMove_drawStep]; omega)
    (by rw [mouseMove_drawStep, hlen]; omega)
  refine ⟨?_, ?_, ?_⟩
  · rw [moveSeq, List.foldl_cons, ← moveSeq, hpre.1, hlen]
  · rw [moveSeq, List.foldl_cons, ← moveSeq, hpre.2.1, mouseMove_drawStep]
  · rw [moveSeq, List.foldl_cons, ← moveSeq, hpre.2.2, mouseMove_totalStep]

/-- One full round from the fresh step `n+1`: the point count grows by
one, and the click finishes exactly when the step was `totalStep - 1`. -/
theorem clickRound_spec (env : Env) (s : MarkState) (ps : List XYPoint)
    (hne : ps ≠ []) (h : s.drawStep = (s.tpPoints.length : ℤ) + 1) :
    (clickRound env s ps).tpPoints.length = s.tpPoints.length + 1 ∧
    (clickRound env s ps).totalStep = s.totalStep ∧
    (clickRound env s ps).drawStep =
      (if s.drawStep = s.totalStep - 1 then GRAPHIC_MARK_DRAW_STEP_FINISHED
       else s.drawStep + 1) := by
  obtain ⟨p, rest, rfl⟩ : ∃ p rest, ps = p :: rest := by
    cases ps with
    | nil => exact absurd rfl hne
    | cons p rest => exact ⟨p, rest, rfl⟩
  have hm := moveSeq_cons_spec env s p rest h
  unfold clickRound mouseLeftButtonDownForDrawing
  rw [hm.2.1, hm.2.2]
  by_cases hc : s.drawStep = s.totalStep - 1
  · rw [if_pos hc, if_pos hc]
    exact ⟨hm.1, rfl, rfl⟩
  · rw [if_neg hc, if_neg hc]
    exact ⟨hm.1, rfl, rfl⟩

/-- The iterated placement invariant: from a state with `n` committed
points and fresh step `n+1`, a sequence of `j` nonempty rounds with
`n + j ≤ K - 1` commits `n + j` points; it stays placing at step
`n + j + 1` while `n + j < K - 1` and reaches FINISHED exactly on the
round that makes `n + j = K - 1`. -/
theorem runRounds_spec (env : Env) (rs : List (List XYPoint)) : ∀ s : MarkState,
    (∀ r ∈ rs, r ≠ []) →
    s.drawStep = (s.tpPoints.length : ℤ) + 1 →
    (s.tpPoints.length : ℤ) + rs.length ≤ s.totalStep - 1 →
    (runRounds env s rs).tpPoints.length = s.tpPoints.length + rs.length ∧
    (runRounds env s rs).totalStep = s.totalStep ∧
    (((s.tpPoints.length : ℤ) + rs.length < s.totalStep - 1 ∨ rs = []) →
      (runRounds env s rs).drawStep = (s.tpPoints.length : ℤ) + rs.length + 1) ∧
    ((rs ≠ [] ∧ (s.tpPoints.length : ℤ) + rs.length = s.totalStep - 1) →
      (runRounds env s rs).drawStep = GRAPHIC_MARK_DRAW_STEP_FINISHED) := by
  induction rs with
  | nil =>
    intro s _ hfresh _
    refine ⟨by simp [runRounds], rfl, ?_, ?_⟩
    · intro _; simpa [runRounds] using hfresh
    · rintro ⟨hne, _⟩; exact absurd rfl hne
  | cons r rest ih =>
    intro s hne hfresh hbound
    have hrne : r ≠ [] := hne r (List.mem_cons_self r rest)
    have hcr := clickRound_spec env s r hrne hfresh
    have hlen1 : ((clickRound env s r).tpPoints.length : ℤ) =
        (s.tpPoints.length : ℤ) + 1 := by rw [hcr.1]; push_cast; ring
    by_cases hfin : s.drawStep = s.totalStep - 1
    · -- the click finished the mark; the bound forces rest = []
      have hrest : rest = [] := by
        simp only [List.length_cons] at hbound
        push_cast at hbound
        have : rest.length = 0 := by omega
        exact List.length_eq_zero.mp this
      subst hrest
      have hrun : runRounds env s [r] = clickRound env s r := by
        simp [runRounds]
      refine ⟨?_, ?_, ?_, ?_⟩
      · rw [hrun, hcr.1]; simp
      · rw [hrun]; exact hcr.2.1
      · intro hcase
        rcases hcase with hlt | habs
        · exfalso; simp [List.length_cons] at hlt; omega
        · exact absurd habs (by simp)
      · intro _
        rw [hrun, hcr.2.2, if_pos hfin]
    · -- the click advanced the step; recurse
      have hstep : (clickRound env s r).drawStep =
          ((clickRound env s r).tpPoints.length : ℤ) + 1 := by
        rw [hcr.2.2, if_neg hfin, hlen1]; omega
      have hbound2 : ((clickRound env s r).tpPoints.length : ℤ) + rest.length ≤
          (clickRound env s r).totalStep - 1 := by
        rw [hlen1, hcr.2.1]
        simp only [List.length_cons] at hbound
        push_cast at hbound ⊢
        omega
      have hne2 : ∀ x ∈ rest, x ≠ [] := fun x hx => hne x (List.mem_cons_of_mem r hx)
      have ihr := ih (clickRound env s r) hne2 hstep hbound2
      have hrun : runRounds env s (r :: rest) = runRounds env (clickRound env s r) rest := by
        simp [runRounds]
      refine ⟨?_, ?_, ?_, ?_⟩
      · rw [hrun, ihr.1, hcr.1]; simp [List.length_cons]; omega
      · rw [hrun, ihr.2.1, hcr.2.1]
      · intro hcase
        have hlt : (s.tpPoints.length : ℤ) + (r :: rest).length < s.totalStep - 1 := by
          rcases hcase with hlt | habs
          · exact hlt
          · exact absurd habs (by simp)
        rw [hrun, ihr.2.2.1]
        · rw [hlen1]; simp only [List.length_cons]; push_cast; omega
        · left
          rw [hlen1, hcr.2.1]
          simp only [List.length_cons] at hlt
          push_cast at hlt ⊢
          omega
      · rintro ⟨-, hfin2⟩
        rcases List.eq_nil_or_concat rest with hrest | _
        · subst hrest
          exfalso
          simp only [List.length_cons, List.length_nil] at hfin2
          push_cast at hfin2
          omega
        · rw [hrun]
          apply ihr.2.2.2
          constructor
          · intro habs
            subst habs
            simp only [List.length_cons, List.length_nil] at hfin2
            push_cast at hfin2
            omega
          · rw [hlen1, hcr.2.1]
            simp only [List.length_cons] at hfin2
            push_cast at hfin2 ⊢
            omega

/-- Claim C3: for a mark with `totalStep = K ≥ 2`, a confirming click in
any placing state with step in `[1, K-1]` transitions to FINISHED exactly
when the step is `K - 1` and otherwise increments the step; hence from the
initial state `PLACING(1)`, `j ≤ K - 1` rounds (each at least one mouse
move, then a click) leave exactly `j` committed points, reach FINISHED
exactly when `j = K - 1`, and otherwise sit at step `j + 1` still
placing. -/
theorem C3_placement_monotonicity (env : Env) (id name : String) (K : ℤ)
    (rs : List (List XYPoint)) (hK : 2 ≤ K)
    (hne : ∀ r ∈ rs, r ≠ []) (hj : (rs.length : ℤ) ≤ K - 1) :
    (∀ s : MarkState, s.totalStep = K → 1 ≤ s.drawStep → s.drawStep ≤ K - 1 →
      (mouseLeftButtonDownForDrawing s).drawStep =
        (if s.drawStep = K - 1 then GRAPHIC_MARK_DRAW_STEP_FINISHED else s.drawStep + 1)) ∧
    (runRounds env (initMark id name K) rs).tpPoints.length = rs.length ∧
    ((rs.length : ℤ) = K - 1 →
      (runRounds env (initMark id name K) rs).drawStep = GRAPHIC_MARK_DRAW_STEP_FINISHED) ∧
    ((rs.length : ℤ) < K - 1 →
      (runRounds env (initMark id name K) rs).drawStep = (rs.length : ℤ) + 1 ∧
      (runRounds env (initMark id name K) rs).drawStep ≠ GRAPHIC_MARK_DRAW_STEP_FINISHED) := by
  have hrr := runRounds_spec env rs (initMark id name K) hne (by simp [initMark,
    GRAPHIC_MARK_DRAW_STEP_START]) (by simpa [initMark] using hj)
  refine ⟨?_, ?_, ?_, ?_⟩
  · intro s hs _ _
    unfold mouseLeftButtonDownForDrawing
    by_cases hc : s.drawStep = K - 1
    · rw [if_pos (by rw [hs]; exact hc), if_pos hc]
    · rw [if_neg (by rw [hs]; exact hc), if_neg hc]
  · simpa [initMark] using hrr.1
  · intro hfin
    rcases List.eq_nil_or_concat rs with hnil | _
    · exfalso; subst hnil; simp at hfin; omega
    · apply hrr.2.2.2
      refine ⟨?_, by simpa [initMark] using hfin⟩
      intro habs
      subst habs
      simp at hfin
      omega
  · intro hlt
    have h1 := hrr.2.2.1 (Or.inl (by simpa [initMark] using hlt))
    have h2 : (runRounds env (initMark id name K) rs).drawStep = (rs.length : ℤ) + 1 := by
      simpa [initMark] using h1
    refine ⟨h2, ?_⟩
    rw [h2]
    unfold GRAPHIC_MARK_DRAW_STEP_FINISHED
    omega

/-- Witness for C3: with `K = 3` and two singleton-move rounds, the run
commits two points and finishes. -/
theorem C3_placement_monotonicity_witness :
    (runRounds env0 (initMark "w" "w" 3)
        [[{ x := 100, y := 50 }], [{ x := 200, y := 80 }]]).tpPoints.length = 2 ∧
    (runRounds env0 (initMark "w" "w" 3)
        [[{ x := 100, y := 50 }], [{ x := 200, y := 80 }]]).drawStep =
      GRAPHIC_MARK_DRAW_STEP_FINISHED := by
  have h := C3_placement_monotonicity env0 "w" "w" 3
    [[{ x := 100, y := 50 }], [{ x := 200, y := 80 }]]
    (by omega) (by intro r hr; fin_cases hr <;> simp) (by simp)
  exact ⟨h.2.1, h.2.2.1 (by simp)⟩

/-! ## C6, C8 — hover hit-testing -/

theorem firstHitIdx_eq_none_iff {α : Type} (p : α → Bool) (l : List α) :
    firstHitIdx p l = none ↔ ∀ a ∈ l, p a = false := by
  induction l with
  | nil => simp [firstHitIdx]
  | cons a rest ih =>
    cases hp : p a with
    | true => simp [firstHitIdx, hp]
    | false => simp [firstHitIdx, hp, ih]

theorem firstHitIdx_spec {α : Type} (p : α → Bool) (l : List α) (d : α) : ∀ i : ℕ,
    firstHitIdx p l = some i →
    i < l.length ∧ p (l.getD i d) = true ∧ ∀ k, k < i → p (l.getD k d) = false := by
  induction l with
  | nil => intro i h; simp [firstHitIdx] at h
  | cons a rest ih =>
    intro i h
    cases hp : p a with
    | true =>
      rw [firstHitIdx, if_pos hp] at h
      cases h
      exact ⟨Nat.succ_pos _, by simpa using hp, fun k hk => absurd hk (Nat.not_lt_zero k)⟩
    | false =>
      rw [firstHitIdx, if_neg (by simp [hp])] at h
      rcases Option.map_eq_some'.mp h with ⟨j, hj, rfl⟩
      have hs := ih j hj
      refine ⟨by simpa using Nat.succ_lt_succ hs.1, by simpa using hs.2.1, ?_⟩
      intro k hk
      cases k with
      | zero => simpa using hp
      | succ k2 => simpa using hs.2.2 k2 (by omega)

theorem firstHitIdx_isSome {α : Type} (p : α → Bool) (l : List α)
    (h : ∃ a ∈ l, p a = true) : ∃ i, firstHitIdx p l = some i := by
  cases hfi : firstHitIdx p l with
  | some i => exact ⟨i, rfl⟩
  | none =>
    rw [firstHitIdx_eq_none_iff] at hfi
    obtain ⟨a, ha, hpa⟩ := h
    rw [hfi a ha] at hpa
    cases hpa

theorem checkGroupsLoop_eq_none (checkOn : GMDataSeg → XYPoint → Bool) (point : XYPoint) :
    ∀ gs : List GraphicOption,
    (∀ g ∈ gs, g.isCheck = true → ∀ dsItem ∈ g.dataSource, checkOn dsItem point = false) →
    checkGroupsLoop checkOn point gs = none := by
  intro gs
  induction gs with
  | nil => intro _; rfl
  | cons g rest ih =>
    intro h
    have hrest := ih (fun x hx => h x (List.mem_cons_of_mem g hx))
    by_cases hg : g.isCheck
    · have hnone : firstHitIdx (fun dsItem => checkOn dsItem point) g.dataSource = none := by
        rw [firstHitIdx_eq_none_iff]
        intro a ha
        exact h g (List.mem_cons_self g rest) hg a ha
      rw [checkGroupsLoop, if_pos hg, hnone]
      exact hrest
    · rw [checkGroupsLoop, if_neg hg]
      exact hrest

/-- The default pixel point used with `List.getD`. -/
def defaultXY : XYPoint := { x := 0, y := 0 }

/-- Claim C6: whenever the query pixel lies in some placed point's
hit-circle, `checkMousePointOnGraphic` reports POINT — never OTHER — with
`hoverIndex` the first matching placement index, and returns true; the
derived-shape loop is not consulted, so a placed-point hit always wins
over any derived-shape hit at the same pixel. -/
theorem C6_hover_point_priority (env : Env) (radius : ℚ)
    (createOpts : List TPPoint → List XYPoint → Option (List GraphicOption))
    (checkOn : GMDataSeg → XYPoint → Bool) (s : MarkState) (point : XYPoint)
    (h : ∃ xy ∈ s.tpPoints.map (toXY env), checkPointOnCircle xy radius point = true) :
    (checkMousePointOnGraphic env radius createOpts checkOn s point).1.hoverType =
      HoverType.POINT ∧
    (checkMousePointOnGraphic env radius createOpts checkOn s point).1.hoverType ≠
      HoverType.OTHER ∧
    (checkMousePointOnGraphic env radius createOpts checkOn s point).2 = some true ∧
    ∃ i : ℕ, (checkMousePointOnGraphic env radius createOpts checkOn s point).1.hoverIndex =
        (i : ℤ) ∧
      i < s.tpPoints.length ∧
      checkPointOnCircle ((s.tpPoints.map (toXY env)).getD i defaultXY) radius point = true ∧
      ∀ k, k < i →
        checkPointOnCircle ((s.tpPoints.map (toXY env)).getD k defaultXY) radius point = false := by
  obtain ⟨i, hi⟩ := firstHitIdx_isSome _ _ h
  have hspec := firstHitIdx_spec
    (fun xy => checkPointOnCircle xy radius point) (s.tpPoints.map (toXY env)) defaultXY i hi
  have hres : checkMousePointOnGraphic env radius createOpts checkOn s point =
      ({ s with hoverType := HoverType.POINT, hoverIndex := (i : ℤ) }, some true) := by
    simp only [checkMousePointOnGraphic, hi]
  rw [hres]
  exact ⟨rfl, by simp, rfl, i, rfl, by simpa using hspec.1, hspec.2.1, hspec.2.2⟩

/-- A mark used by hover witnesses: one placed point whose pixel position
under `envW` is (10, 7). -/
def envW : Env :=
  { convertToPixelX := fun i => (i : ℚ)
    convertFromPixelX := fun q => Rat.floor q
    convertToPixelY := fun q => q
    convertFromPixelY := fun q => q
    timestampToDataIndex := fun t => t
    dataIndexToTimestamp := fun i => some i }

def sW6 : MarkState :=
  { id := "w6"
    name := "w6"
    totalStep := 3
    drawStep := GRAPHIC_MARK_DRAW_STEP_FINISHED
    tpPoints := [{ timestamp := some 10, dataIndex := 10, price := 7 }]
    hoverType := HoverType.NONE
    hoverIndex := -1 }

/-- A graphic option whose shape hit-test would also match, to exercise
the priority of the placed-point loop. -/
def optsW6 : List GraphicOption :=
  [{ type := GraphicMarkDrawType.LINE, isDraw := none, isCheck := true
     dataSource := [GMDataSeg.seg [{ x := 10, y := 7 }, { x := 20, y := 7 }]] }]

/-- Witness for C6: querying exactly at the placed point's pixel, with a
shape hook that reports a hit for every query, still yields POINT at index
0 and true. -/
theorem C6_hover_point_priority_witness :
    (checkMousePointOnGraphic envW 5 (fun _ _ => some optsW6) (fun _ _ => true)
        sW6 { x := 10, y := 7 }).1.hoverType = HoverType.POINT ∧
    (checkMousePointOnGraphic envW 5 (fun _ _ => some optsW6) (fun _ _ => true)
        sW6 { x := 10, y := 7 }).2 = some true := by
  have h := C6_hover_point_priority envW 5 (fun _ _ => some optsW6) (fun _ _ => true)
    sW6 { x := 10, y := 7 }
    ⟨toXY envW { timestamp := some 10, dataIndex := 10, price := 7 },
      by simp [sW6],
      by
        simp only [checkPointOnCircle, toXY, timestampOrDataIndexToPointX, jsTruthyInt, envW]
        norm_num⟩
  exact ⟨h.1, h.2.2.1⟩

/-- Claim C8: a query pixel hitting neither a placed point's hit-circle
nor any derived shape makes `checkMousePointOnGraphic` reset the hover
parameters to (NONE, -1) and fall off the end without an explicit return
value (`none`, the implicit undefined — not `true`, and falsy), while both
match paths return `some true`. -/
theorem C8_no_match_resets_and_returns_undefined (env : Env) (radius : ℚ)
    (createOpts : List TPPoint → List XYPoint → Option (List GraphicOption))
    (checkOn : GMDataSeg → XYPoint → Bool) (s : MarkState) (point : XYPoint)
    (h1 : ∀ xy ∈ s.tpPoints.map (toXY env), checkPointOnCircle xy radius point = false)
    (h2 : ∀ g ∈ (createOpts s.tpPoints (s.tpPoints.map (toXY env))).getD [],
        g.isCheck = true → ∀ dsItem ∈ g.dataSource, checkOn dsItem point = false) :
    checkMousePointOnGraphic env radius createOpts checkOn s point =
      ({ s with hoverType := HoverType.NONE, hoverIndex := -1 }, none) ∧
    (checkMousePointOnGraphic env radius createOpts checkOn s point).2 ≠ some true ∧
    jsTruthy (checkMousePointOnGraphic env radius createOpts checkOn s point).2 = false := by
  have ha : firstHitIdx (fun xy => checkPointOnCircle xy radius point)
      (s.tpPoints.map (toXY env)) = none := (firstHitIdx_eq_none_iff _ _).mpr h1
  have hb := checkGroupsLoop_eq_none checkOn point _ h2
  have hmain : checkMousePointOnGraphic env radius createOpts checkOn s point =
      ({ s with hoverType := HoverType.NONE, hoverIndex := -1 }, none) := by
    simp only [checkMousePointOnGraphic, ha, hb, resetHoverParams]
  refine ⟨hmain, ?_, ?_⟩
  · rw [hmain]; simp
  · rw [hmain]; rfl

def sW8 : MarkState :=
  { id := "w8"
    name := "w8"
    totalStep := 3
    drawStep := GRAPHIC_MARK_DRAW_STEP_FINISHED
    tpPoints := [{ timestamp := some 100, dataIndex := 100, price := 100 }]
    hoverType := HoverType.POINT
    hoverIndex := 0 }

/-- Witness for C8: a query at the origin, far from the placed point,
with a shape group whose hit test always fails. -/
theorem C8_no_match_witness :
    checkMousePointOnGraphic envW 5 (fun _ _ => some optsW6) (fun _ _ => false)
        sW8 { x := 0, y := 0 } =
      ({ sW8 with hoverType := HoverType.NONE, hoverIndex := -1 }, none) := by
  have h := C8_no_match_resets_and_returns_undefined envW 5 (fun _ _ => some optsW6)
    (fun _ _ => false) sW8 { x := 0, y := 0 }
    (by
      intro xy hxy
      simp only [sW8, List.map_cons, List.map_nil, List.mem_singleton] at hxy
      subst hxy
      simp only [checkPointOnCircle, toXY, timestampOrDataIndexToPointX, jsTruthyInt, envW]
      norm_num)
    (by intro g _ _ dsItem _; rfl)
  exact h.1

/-! ## C7 — drag mutates only the hovered point -/

/-- The default time-price point used with `List.getD`. -/
def defaultTP : TPPoint := { timestamp := none, dataIndex := 0, price := 0 }

/-- Claim C7: `mousePressedMove` with `hoverType = POINT` and a valid
`hoverIndex` overwrites exactly `points[hoverIndex]` with the re-resolved
(timestamp, dataIndex, price), leaves every other placed point unchanged
field-for-field, and leaves `drawStep` (and the hover bookkeeping)
unchanged; with `hoverType ≠ POINT` or `hoverIndex = -1` it changes
nothing at all. -/
theorem C7_drag_mutates_only_hovered_point (env : Env) (s : MarkState) (p : XYPoint) :
    (∀ i : ℕ, s.hoverType = HoverType.POINT → s.hoverIndex = (i : ℤ) →
      i < s.tpPoints.length →
      (mousePressedMove env s p).drawStep = s.drawStep ∧
      (mousePressedMove env s p).hoverType = s.hoverType ∧
      (mousePressedMove env s p).hoverIndex = s.hoverIndex ∧
      (mousePressedMove env s p).tpPoints.length = s.tpPoints.length ∧
      (mousePressedMove env s p).tpPoints.getD i defaultTP =
        { timestamp := env.dataIndexToTimestamp (env.convertFromPixelX p.x)
          dataIndex := env.convertFromPixelX p.x
          price := env.convertFromPixelY p.y } ∧
      ∀ k : ℕ, k < s.tpPoints.length → k ≠ i →
        (mousePressedMove env s p).tpPoints.getD k defaultTP =
          s.tpPoints.getD k defaultTP) ∧
    ((s.hoverType ≠ HoverType.POINT ∨ s.hoverIndex = -1) →
      mousePressedMove env s p = s) := by
  constructor
  · intro i hht hhi hlt
    have hguard : s.hoverType = HoverType.POINT ∧ s.hoverIndex ≠ -1 := by
      refine ⟨hht, ?_⟩
      rw [hhi]
      omega
    have h0 : 0 ≤ s.hoverIndex := by rw [hhi]; omega
    have htn : s.hoverIndex.toNat = i := by omega
    have hset : (mousePressedMove env s p).tpPoints =
        s.tpPoints.set i
          { timestamp := env.dataIndexToTimestamp (env.convertFromPixelX p.x)
            dataIndex := env.convertFromPixelX p.x
            price := env.convertFromPixelY p.y } := by
      simp only [mousePressedMove, if_pos hguard, if_pos h0, htn]
    have hd : (mousePressedMove env s p).drawStep = s.drawStep := by
      simp only [mousePressedMove, if_pos hguard]
    have hh1 : (mousePressedMove env s p).hoverType = s.hoverType := by
      simp only [mousePressedMove, if_pos hguard]
    have hh2 : (mousePressedMove env s p).hoverIndex = s.hoverIndex := by
      simp only [mousePressedMove, if_pos hguard]
    refine ⟨hd, hh1, hh2, ?_, ?_, ?_⟩
    · rw [hset, List.length_set]
    · rw [hset, List.getD_eq_getD_get?, List.get?_eq_getElem?,
        List.getElem?_set_self (by simpa using hlt)]
      rfl
    · intro k hk hki
      rw [hset, List.getD_eq_getD_get?, List.getD_eq_getD_get?,
        List.get?_eq_getElem?, List.get?_eq_getElem?,
        List.getElem?_set_ne (fun hik => hki hik.symm)]
  · intro hcase
    have hguard : ¬ (s.hoverType = HoverType.POINT ∧ s.hoverIndex ≠ -1) := by
      rcases hcase with hc | hc
      · exact fun hand => hc hand.1
      · exact fun hand => hand.2 hc
    simp only [mousePressedMove, if_neg hguard]

def sW7 : MarkState :=
  { id := "w7"
    name := "w7"
    totalStep := 3
    drawStep := GRAPHIC_MARK_DRAW_STEP_FINISHED
    tpPoints := [{ timestamp := some 10, dataIndex := 10, price := 7 },
                 { timestamp := some 20, dataIndex := 20, price := 9 }]
    hoverType := HoverType.POINT
    hoverIndex := 0 }

/-- Witness for C7: dragging the hovered point 0 of a two-point mark to
pixel (3, 4) rewrites point 0 to the re-resolved values and leaves point 1
untouched. -/
theorem C7_drag_witness :
    (mousePressedMove envW sW7 { x := 3, y := 4 }).tpPoints.getD 0 defaultTP =
      { timestamp := some 3, dataIndex := 3, price := 4 } ∧
    (mousePressedMove envW sW7 { x := 3, y := 4 }).tpPoints.getD 1 defaultTP =
      { timestamp := some 20, dataIndex := 20, price := 9 } ∧
    (mousePressedMove envW sW7 { x := 3, y := 4 }).drawStep = sW7.drawStep := by
  have h := (C7_drag_mutates_only_hovered_point envW sW7 { x := 3, y := 4 }).1 0 rfl rfl
    (by simp [sW7])
  refine ⟨?_, ?_, h.1⟩
  · rw [h.2.2.2.2.1]
    decide
  · have h2 := h.2.2.2.2.2 1 (by simp [sW7]) (by omega)
    rw [h2]
    decide

/-! ## C10 — falsy timestamps take the dataIndex path -/

/-- Claim C10: a timestamp of exactly 0 (and an absent timestamp) is
falsy, so `_timestampOrDataIndexToPointX` ignores it and converts through
the `dataIndex` path; consequently the pixel position computed for such a
point (the conversion shared by `draw` and `checkMousePointOnGraphic`
through `toXY`) uses only `dataIndex`. -/
theorem C10_falsy_timestamp_uses_dataIndex_path (env : Env) (dataIndex : ℤ) (price : ℚ) :
    timestampOrDataIndexToPointX env (some 0) dataIndex = env.convertToPixelX dataIndex ∧
    timestampOrDataIndexToPointX env none dataIndex = env.convertToPixelX dataIndex ∧
    toXY env { timestamp := some 0, dataIndex := dataIndex, price := price } =
      { x := env.convertToPixelX dataIndex, y := env.convertToPixelY price } := by
  exact ⟨rfl, rfl, rfl⟩

end KLC
